import Mathlib

/-! i2ctool: command interpreter and bus operations

A shallow embedding of `src/main.cpp` (the whole program) and theorems about it.

Conventions of the embedding

* The target is Stratify OS on ARM Cortex-M: `int` and `long` are 32 bits wide, plain
  `char` is unsigned and memory is little-endian.
* `stdout` is the list of the strings produced by the successive `printf` calls, in order;
  the text on the terminal is their concatenation.
* The I2C driver, `Pin::from_string` and `strerror` belong to the platform library. They are
  parameters of the model (`Hal`): a driver is an arbitrary deterministic state machine.
* Every call made on the driver is recorded, with what it returned, in `World.trace`.
* `exit` inside a helper is modelled by `Step.exit`, which every caller propagates.
* Where the C program leaves defined behaviour (an array of negative length, a read past
  the end of the buffer) the run stops there with `Step.fault`: nothing that the source
  would do afterwards is modelled.
-/

namespace I2CTool

/-! ## C library conversions used by `var::String` -/

/-- Largest `long` (and `int`) of the 32-bit target. -/
def LONG_MAX : Int := 2147483647

/-- Smallest `long` (and `int`) of the 32-bit target. -/
def LONG_MIN : Int := -2147483648

/-- The `isspace` class of the C locale. -/
def isspace (c : Char) : Bool :=
  c == ' ' || c == '\t' || c == '\n' || c == '\x0b' || c == '\x0c' || c == '\r'

/-- Value of a character read as a digit, letters counting from ten. -/
def digitValue (c : Char) : Option Nat :=
  if '0' ≤ c ∧ c ≤ '9' then some (c.toNat - 48)
  else if 'a' ≤ c ∧ c ≤ 'z' then some (c.toNat - 87)
  else if 'A' ≤ c ∧ c ≤ 'Z' then some (c.toNat - 55)
  else none

/-- Consume the longest run of leading digits valid in `base`, most significant first. -/
def accumulate (base : Nat) : List Char → Nat → Nat
  | [], acc => acc
  | c :: cs, acc =>
    match digitValue c with
    | some d => if d < base then accumulate base cs (acc * base + d) else acc
    | none => acc

/-- Out-of-range results of `strtol` saturate. -/
def clampLong (v : Int) : Int :=
  if v > LONG_MAX then LONG_MAX else if v < LONG_MIN then LONG_MIN else v

/-- Optional sign in front of the digits. -/
def takeSign : List Char → Bool × List Char
  | '-' :: r => (true, r)
  | '+' :: r => (false, r)
  | cs => (false, cs)

/-- Optional `0x` or `0X` in front of hexadecimal digits. -/
def takeHexMark (base : Nat) : List Char → List Char
  | '0' :: 'x' :: r => if base = 16 then r else '0' :: 'x' :: r
  | '0' :: 'X' :: r => if base = 16 then r else '0' :: 'X' :: r
  | cs => cs

/-- The C function `strtol(s, 0, base)` for a base from 2 to 36. -/
def strtol (s : String) (base : Nat) : Int :=
  let signed := takeSign (s.toList.dropWhile isspace)
  let v : Int := (accumulate base (takeHexMark base signed.2) 0 : Nat)
  clampLong (if signed.1 then -v else v)

/-- The C function `atoi`. -/
def atoi (s : String) : Int := strtol s 10

/-- Method `String::to_integer()`, which is `atoi` on the text. -/
def to_integer (s : String) : Int := atoi s

/-- Method `String::to_long(base)`, which is `strtol` on the text. -/
def to_long (s : String) (base : Nat) : Int := strtol s base

/-- Method `String::is_empty()`. -/
def is_empty (s : String) : Bool := decide (s = "")

/-- Conversion of an integer to `u8`. -/
def to_u8 (v : Int) : Nat := (v % 256).toNat

/-- Conversion of an integer to `u32`; also how `printf` reads an `int` handed to `%X`. -/
def to_u32 (v : Int) : Nat := (v % 4294967296).toNat

/-- How `printf` reads a `u32` handed to `%ld`: as a signed 32-bit `long`. -/
def to_long_signed (v : Nat) : Int :=
  if v % 4294967296 < 2147483648 then (v % 4294967296 : Nat) else (v % 4294967296 : Nat) - 4294967296

/-- Wrapping 32-bit `int` addition. -/
def int_add (a b : Int) : Int :=
  let r := (a + b) % 4294967296
  if r < 2147483648 then r else r - 4294967296

/-! ## `printf` conversions -/

/-- Upper-case hexadecimal digit. -/
def hexChar (d : Nat) : Char := "0123456789ABCDEF".toList.getD d '0'

/-- Hexadecimal digits of `n`, most significant first; `fuel` bounds their number. -/
def hexDigits : Nat → Nat → List Char
  | 0, _ => []
  | fuel + 1, n => if n < 16 then [hexChar n] else hexDigits fuel (n / 16) ++ [hexChar (n % 16)]

/-- Left padding with zeros up to `width` characters. -/
def zero_pad (width : Nat) (s : String) : String :=
  String.mk (List.replicate (width - s.length) '0') ++ s

/-- Conversion `%d`. -/
def fmt_d (v : Int) : String := toString v

/-- Conversion `%ld` applied to a `u32`. -/
def fmt_ld (v : Nat) : String := toString (to_long_signed v)

/-- Conversion `%X` applied to an `unsigned int`. -/
def fmt_X (n : Nat) : String := String.mk (hexDigits 8 (n % 4294967296))

/-- Conversion `%02X`. -/
def fmt_02X (n : Nat) : String := zero_pad 2 (fmt_X n)

/-- Conversion `%03d`: the sign, when there is one, counts in the width. -/
def fmt_03d (v : Int) : String :=
  if v < 0 then "-" ++ zero_pad 2 (toString v.natAbs) else zero_pad 3 (toString v.natAbs)

/-! ## Data model -/

/-- Pin descriptor `mcu_pin_t`: two `u8` fields. -/
structure mcu_pin_t where
  port : Nat
  pin : Nat
  deriving DecidableEq, Repr

/-- Pin assignment `i2c_pin_assignment_t`. -/
structure i2c_pin_assignment_t where
  sda : mcu_pin_t
  scl : mcu_pin_t
  deriving DecidableEq, Repr

/-- The bits of the flag word `o_flags` that the program sets; every other bit stays
cleared after the initial `memset`. `FLAG_IS_PULLUP` and `IS_PULLUP` name the same bit. -/
structure i2c_flags where
  SET_MASTER : Bool
  IS_PULLUP : Bool
  deriving DecidableEq, Repr

/-- Bus attributes `i2c_attr_t`: flag word, frequency (`u32`) and pin assignment. -/
structure i2c_attr_t where
  o_flags : i2c_flags
  freq : Nat
  pin_assignment : i2c_pin_assignment_t
  deriving DecidableEq, Repr

/-- Value of `ACTION_SCAN`. -/
def ACTION_SCAN : Int := 0

/-- Value of `ACTION_READ`. -/
def ACTION_READ : Int := 1

/-- Value of `ACTION_WRITE`. -/
def ACTION_WRITE : Int := 2

/-- The record `options_t`. -/
structure options_t where
  attr : i2c_attr_t
  port : Nat
  slave_addr : Nat
  action : Int
  offset : Int
  value : Int
  nbytes : Int
  is_offset_16 : Bool
  is_map : Bool
  deriving DecidableEq, Repr

/-- What the `Cli` object answers: the text of each named option (empty when absent), the
two help switches, the program name and the text `show_options` prints. -/
structure CliArgs where
  name : String
  port : String
  action : String
  address : String
  offset : String
  value : String
  nbytes : String
  pullup : String
  frequency : String
  offset16 : String
  map : String
  sda : String
  scl : String
  help_long : Bool
  help_short : Bool
  options_text : List String
  deriving DecidableEq, Repr

/-- Second argument of `I2C::prepare`. -/
inductive prepare_flags where
  | by_default
  | FLAG_PREPARE_DATA
  deriving DecidableEq, Repr

/-- One call on the I2C object, with what it returned. -/
inductive Call where
  | open_ (port : Nat) (result : Int)
  | set_attributes (attr : i2c_attr_t) (result : Int)
  | prepare (slave_addr : Nat) (flags : prepare_flags)
  | read (nbyte : Nat) (result : Int)
  | read_loc (loc : Int) (nbyte : Int) (result : Int)
  | write_loc (loc : Int) (data : List Nat) (result : Int)
  | close
  | error_number (result : Int)
  | get_error (result : Int)
  deriving DecidableEq, Repr

/-- The platform library: an I2C driver over a state `σ`, the pin parser and `strerror`. -/
structure Hal (σ : Type) where
  open_ : Nat → σ → Int × σ
  set_attributes : i2c_attr_t → σ → Int × σ
  prepare : Nat → prepare_flags → σ → σ
  read : Nat → σ → Int × σ
  read_loc : Int → Int → σ → Int × List Nat × σ
  write_loc : Int → List Nat → σ → Int × σ
  close : σ → σ
  error_number : σ → Int
  get_error : σ → Int
  strerror : σ → String
  from_string : String → mcu_pin_t

/-- Everything the process can observe or change: the driver, the two output streams and
the calls made on the driver. -/
structure World (σ : Type) where
  dev : σ
  out : List String
  err : List String
  trace : List Call

/-- Either control goes on, or the process has ended with a status, or the program has left
defined behaviour in the world `w` and the process dies there. -/
inductive Step (σ : Type) where
  | cont (w : World σ)
  | exit (status : Nat) (w : World σ)
  | fault (w : World σ)

/-- The world a process starts in. -/
def World.init {σ : Type} (s : σ) : World σ :=
  { dev := s, out := [], err := [], trace := [] }

/-- One `printf` call. -/
def World.printf {σ : Type} (w : World σ) (s : String) : World σ :=
  { w with out := w.out ++ [s] }

/-- One `perror` call: the message, a colon and the description of `errno`. -/
def World.perror {σ : Type} (hal : Hal σ) (w : World σ) (msg : String) : World σ :=
  { w with err := w.err ++ [msg ++ ": " ++ hal.strerror w.dev ++ "\n"] }

/-- Record a call and move the driver to its next state. -/
def World.call {σ : Type} (w : World σ) (c : Call) (s : σ) : World σ :=
  { w with dev := s, trace := w.trace ++ [c] }

/-- The world in which a step ends. -/
def Step.world {σ : Type} : Step σ → World σ
  | Step.cont w => w
  | Step.exit _ w => w
  | Step.fault w => w

/-- The exit status of a step that ended the process. -/
def Step.status {σ : Type} : Step σ → Option Nat
  | Step.cont _ => none
  | Step.exit c _ => some c
  | Step.fault _ => none

/-! ## The program -/

/-- Function `show_usage` (lines 272-281): four fixed lines, the option list, `exit(0)`. -/
def show_usage {σ : Type} (cli : CliArgs) (w : World σ) : Step σ :=
  let w := w.printf ("usage: " ++ cli.name ++ " --i2c=<port> --action=[read|write|scan] [options]\n")
  let w := w.printf "examples:\n"
  let w := w.printf "\tScan the specified bus: i2ctool --action=scan --i2c=0\n"
  let w := w.printf
    "\tRead 10 bytes from the specified offset: i2ctool --action=read --i2c=1 --address=0x4C --offset=0 --nbytes=10\n"
  let w := w.printf
    "\tWrite to an I2C device: i2ctool --action=read --i2c=1 --address=0x4C --offset=0 --value=5\n"
  let w := { w with out := w.out ++ cli.options_text }
  Step.exit 0 w

/-- Function `i2c_open` (lines 179-192): open the port bound to the object and apply the
attributes; either failure ends the process with status 1. -/
def i2c_open {σ : Type} (hal : Hal σ) (options : options_t) (w : World σ) : Step σ :=
  let r := hal.open_ options.port w.dev
  let w := w.call (Call.open_ options.port r.1) r.2
  if r.1 < 0 then
    Step.exit 1 (w.perror hal "Failed to open I2C port")
  else
    let a := hal.set_attributes options.attr w.dev
    let w := w.call (Call.set_attributes options.attr a.1) a.2
    if a.1 < 0 then
      let w := w.call Call.close (hal.close w.dev)
      let e := hal.error_number w.dev
      let w := w.call (Call.error_number e) w.dev
      Step.exit 1
        (w.perror hal ("Failed to set I2C attributes (" ++ fmt_d a.1 ++ "," ++ fmt_d e ++ ")"))
    else
      Step.cont w

/-- Body of the loop of `scan_bus` (lines 203-218) for the address `i`. -/
def scan_step {σ : Type} (hal : Hal σ) (w : World σ) (i : Nat) : World σ :=
  let w := if i % 16 = 0 then w.printf ("0x" ++ fmt_02X i ++ ":") else w
  let w :=
    if i ≠ 0 then
      let w := w.call (Call.prepare i prepare_flags.FLAG_PREPARE_DATA)
        (hal.prepare i prepare_flags.FLAG_PREPARE_DATA w.dev)
      let r := hal.read 1 w.dev
      let w := w.call (Call.read 1 r.1) r.2
      if r.1 = 1 then w.printf ("0x" ++ fmt_02X i ++ " ") else w.printf "____ "
    else
      w.printf "____ "
  if i % 16 = 15 then w.printf "\n" else w

/-- Function `scan_bus` (lines 195-224): `for(i=0; i <= 127; i++)` over the loop body. -/
def scan_bus {σ : Type} (hal : Hal σ) (options : options_t) (w : World σ) : Step σ :=
  match i2c_open hal options w with
  | Step.exit c w => Step.exit c w
  | Step.fault w => Step.fault w
  | Step.cont w =>
    let w := (List.range 128).foldl (scan_step hal) w
    let w := w.printf "\n"
    Step.cont (w.call Call.close (hal.close w.dev))

/-- The array `buffer` after the register read: `nbytes` zeroed bytes over which the driver
has stored `data` from index 0. -/
def buffer_after (nbytes : Int) (data : List Nat) : List Nat :=
  (List.range nbytes.toNat).map (fun i => data.getD i 0 % 256)

/-- Body of the printing loop of `read_bus` (lines 241-247) for the index `i`. Reading
`buffer[i]` past the end of the array is where the program leaves defined behaviour. -/
def read_step {σ : Type} (options : options_t) (buffer : List Nat) (st : Step σ) (i : Nat) :
    Step σ :=
  match st with
  | Step.cont w =>
    if buffer.length ≤ i then
      Step.fault w
    else
      let reg := int_add i options.offset
      let b := buffer.getD i 0
      if options.is_map then
        Step.cont
          (w.printf ("\x7b 0x" ++ fmt_02X (to_u32 reg) ++ ", 0x" ++ fmt_02X b ++ " \x7d,\n"))
      else
        Step.cont
          (w.printf ("Reg[" ++ fmt_03d reg ++ " or 0x" ++ fmt_02X (to_u32 reg) ++ "] = " ++
            fmt_03d b ++ " or 0x" ++ fmt_02X b ++ "\n"))
  | Step.exit c w => Step.exit c w
  | Step.fault w => Step.fault w

/-- Function `read_bus` (lines 226-254). The array `char buffer[options.nbytes]` and its
`memset` come first (lines 230-231): with a negative length the program leaves defined
behaviour before the bus is touched. -/
def read_bus {σ : Type} (hal : Hal σ) (options : options_t) (w : World σ) : Step σ :=
  if options.nbytes < 0 then
    Step.fault w
  else
    match i2c_open hal options w with
    | Step.exit c w => Step.exit c w
    | Step.fault w => Step.fault w
    | Step.cont w =>
      let w := w.call (Call.prepare options.slave_addr prepare_flags.by_default)
        (hal.prepare options.slave_addr prepare_flags.by_default w.dev)
      let w := w.printf ("Read 0x" ++ fmt_X options.slave_addr ++ " " ++
        fmt_d options.offset ++ " " ++ fmt_d options.nbytes ++ "\n")
      let r := hal.read_loc options.offset options.nbytes w.dev
      let ret := r.1
      let buffer := buffer_after options.nbytes r.2.1
      let w := w.call (Call.read_loc options.offset options.nbytes ret) r.2.2
      let after : Step σ :=
        if ret > 0 then
          (List.range ret.toNat).foldl (read_step options buffer) (Step.cont w)
        else
          let e := hal.get_error w.dev
          let w := w.call (Call.get_error e) w.dev
          Step.cont
            (w.printf ("Failed to read 0x" ++ fmt_X options.slave_addr ++ " (" ++ fmt_d e ++
              ")\n"))
      match after with
      | Step.cont w => Step.cont (w.call Call.close (hal.close w.dev))
      | Step.exit c w => Step.exit c w
      | Step.fault w => Step.fault w

/-- Function `write_bus` (lines 256-269). The driver is handed the address of the `int`
field `value` and the length 1: it sees the lowest byte of the value. -/
def write_bus {σ : Type} (hal : Hal σ) (options : options_t) (w : World σ) : Step σ :=
  match i2c_open hal options w with
  | Step.exit c w => Step.exit c w
  | Step.fault w => Step.fault w
  | Step.cont w =>
    let w := w.call (Call.prepare options.slave_addr prepare_flags.by_default)
      (hal.prepare options.slave_addr prepare_flags.by_default w.dev)
    let data := [to_u8 options.value]
    let r := hal.write_loc options.offset data w.dev
    let w := w.call (Call.write_loc options.offset data r.1) r.2
    let w :=
      if r.1 < 0 then
        let e := hal.get_error w.dev
        let w := w.call (Call.get_error e) w.dev
        w.printf ("Failed to write 0x" ++ fmt_X options.slave_addr ++ " (" ++ fmt_d e ++ ")\n")
      else w
    Step.cont (w.call Call.close (hal.close w.dev))

/-- Lines 45-46 and 114-139 of `main`: the options record built from the option texts. -/
def resolve_options {σ : Type} (hal : Hal σ) (cli : CliArgs) (action : Int) : options_t :=
  let freq := to_u32 (to_integer cli.frequency)
  let nbytes := to_integer cli.nbytes
  { attr :=
      { freq := if freq = 0 then 100000 else freq
        o_flags := { SET_MASTER := true, IS_PULLUP := decide (cli.pullup = "true") }
        pin_assignment :=
          { sda := if is_empty cli.sda = false then hal.from_string cli.sda else ⟨255, 255⟩
            scl := if is_empty cli.scl = false then hal.from_string cli.scl else ⟨255, 255⟩ } }
    port := to_u8 (to_integer cli.port)
    value := to_integer cli.value
    offset := to_integer cli.offset
    slave_addr := to_u8 (to_long cli.address 16)
    nbytes := if nbytes = 0 ∧ is_empty cli.nbytes = true then 1 else nbytes
    is_map := decide (cli.map = "true")
    is_offset_16 := decide (cli.offset16 = "true")
    action := action }

/-- Lines 141-155 of `main`: the two `printf` calls that make the summary line. -/
def print_summary {σ : Type} (options : options_t) (w : World σ) : World σ :=
  let w := w.printf ("I2C Port:" ++ fmt_d options.port ++ " Bitrate:" ++
    fmt_ld options.attr.freq ++ "bps PU:" ++ (if options.attr.o_flags.IS_PULLUP then "1" else "0"))
  if options.attr.pin_assignment.sda.port ≠ 255 then
    w.printf (" sda:" ++ fmt_d options.attr.pin_assignment.sda.port ++ "." ++
      fmt_d options.attr.pin_assignment.sda.pin ++ " scl:" ++
      fmt_d options.attr.pin_assignment.scl.port ++ "." ++
      fmt_d options.attr.pin_assignment.scl.pin ++ "\n")
  else
    w.printf " default pin assignment\n"

/-- Lines 157-176 of `main`: the `switch` on the action and `return 0`. -/
def dispatch {σ : Type} (hal : Hal σ) (cli : CliArgs) (options : options_t) (w : World σ) :
    Step σ :=
  let after : Step σ :=
    if options.action = ACTION_SCAN then
      scan_bus hal options w
    else if options.action = ACTION_READ then
      read_bus hal options
        (w.printf ("Read: " ++ fmt_d options.nbytes ++ " bytes from 0x" ++
          fmt_X options.slave_addr ++ " at " ++ fmt_d options.offset ++ "\n"))
    else if options.action = ACTION_WRITE then
      write_bus hal options
        (w.printf ("Write: " ++ fmt_d options.value ++ " to " ++ fmt_d options.offset ++
          " on 0x" ++ fmt_X options.slave_addr ++ "\n"))
    else
      show_usage cli w
  match after with
  | Step.exit c w => Step.exit c w
  | Step.cont w => Step.exit 0 w
  | Step.fault w => Step.fault w

/-- Lines 99-155 of `main`, entered once the action is known: the three presence checks, in
the order offset, value, address, then the options record and the summary line. -/
def check_and_run {σ : Type} (hal : Hal σ) (cli : CliArgs) (action : Int)
    (is_slave_address_required is_value_required is_offset_required : Bool) (w : World σ) :
    Step σ :=
  if is_empty cli.offset && is_offset_required then
    show_usage cli (w.printf "error: specify offset value with --offset=<value>\n")
  else if is_empty cli.value && is_value_required then
    show_usage cli (w.printf "error: specify write value with --value=<value>\n")
  else if is_empty cli.address && is_slave_address_required then
    show_usage cli (w.printf "error: specify slave address with --address=<value>\n")
  else
    let options := resolve_options hal cli action
    dispatch hal cli options (print_summary options w)

/-- Function `main` (lines 39-177). The result is `Step.exit`, the status with which the
process ends and the world it leaves, or `Step.fault`. -/
def main {σ : Type} (hal : Hal σ) (cli : CliArgs) (w : World σ) : Step σ :=
  if cli.help_long || cli.help_short then
    show_usage cli w
  else if cli.action = "scan" then
    check_and_run hal cli ACTION_SCAN false false false w
  else if cli.action = "write" then
    check_and_run hal cli ACTION_WRITE true true true w
  else if cli.action = "read" then
    check_and_run hal cli ACTION_READ true false true w
  else
    show_usage cli (w.printf "error: specify action with --action=[read|write|scan]\n")

/-! ## Vocabulary of the statements -/

/-- The text `show_usage` prints. -/
def usage_text (cli : CliArgs) : List String :=
  [ "usage: " ++ cli.name ++ " --i2c=<port> --action=[read|write|scan] [options]\n",
    "examples:\n",
    "\tScan the specified bus: i2ctool --action=scan --i2c=0\n",
    "\tRead 10 bytes from the specified offset: i2ctool --action=read --i2c=1 --address=0x4C --offset=0 --nbytes=10\n",
    "\tWrite to an I2C device: i2ctool --action=read --i2c=1 --address=0x4C --offset=0 --value=5\n" ]
  ++ cli.options_text

/-- The four one-line diagnostics of the validation gate. -/
def diagnostics : List String :=
  [ "error: specify action with --action=[read|write|scan]\n",
    "error: specify offset value with --offset=<value>\n",
    "error: specify write value with --value=<value>\n",
    "error: specify slave address with --address=<value>\n" ]

/-- The argument sets the validation gate refuses. -/
def fails_validation (cli : CliArgs) : Prop :=
  (cli.action ≠ "scan" ∧ cli.action ≠ "read" ∧ cli.action ≠ "write") ∨
  (cli.action = "write" ∧ (cli.address = "" ∨ cli.offset = "" ∨ cli.value = "")) ∨
  (cli.action = "read" ∧ (cli.address = "" ∨ cli.offset = ""))

/-- Neither `--help` nor `-h` is given. -/
def no_help (cli : CliArgs) : Prop := cli.help_long = false ∧ cli.help_short = false

/-- An invocation with no option at all. -/
def bare : CliArgs :=
  { name := "i2ctool", port := "", action := "", address := "", offset := "", value := "",
    nbytes := "", pullup := "", frequency := "", offset16 := "", map := "", sda := "", scl := "",
    help_long := false, help_short := false, options_text := [] }

/-- A driver whose state is the address last prepared: every call succeeds, the devices at
0x10 and 0x42 answer a one-byte read, a register read of `n` bytes at `loc` delivers the
bytes `loc + 200, loc + 201, ...` and a write reports the number of bytes taken. -/
def sampleHal : Hal Nat where
  open_ := fun _ s => (0, s)
  set_attributes := fun _ s => (0, s)
  prepare := fun a _ _ => a
  read := fun _ s => (if s = 16 ∨ s = 66 then 1 else -1, s)
  read_loc := fun loc n s => (n, (List.range n.toNat).map (fun i => (loc.toNat + 200 + i) % 256), s)
  write_loc := fun _ data s => (data.length, s)
  close := fun s => s
  error_number := fun _ => 0
  get_error := fun _ => 0
  strerror := fun _ => "Success"
  from_string := fun _ => ⟨255, 255⟩

/-- The driver opens and accepts the attributes. -/
def opens_ok {σ : Type} (hal : Hal σ) (o : options_t) (s : σ) : Prop :=
  0 ≤ (hal.open_ o.port s).1 ∧ 0 ≤ (hal.set_attributes o.attr (hal.open_ o.port s).2).1

/-- The two calls of a successful `i2c_open`. -/
def open_calls {σ : Type} (hal : Hal σ) (o : options_t) (s : σ) : List Call :=
  [Call.open_ o.port (hal.open_ o.port s).1,
   Call.set_attributes o.attr (hal.set_attributes o.attr (hal.open_ o.port s).2).1]

/-- State of the driver after a successful `i2c_open`. -/
def opened_dev {σ : Type} (hal : Hal σ) (o : options_t) (s : σ) : σ :=
  (hal.set_attributes o.attr (hal.open_ o.port s).2).2

/-- State of the driver when the scan reaches the address `i`, from the state `s` at 0. -/
def scan_dev {σ : Type} (hal : Hal σ) (s : σ) : Nat → σ
  | 0 => s
  | i + 1 =>
    if i = 0 then scan_dev hal s i
    else (hal.read 1 (hal.prepare i prepare_flags.FLAG_PREPARE_DATA (scan_dev hal s i))).2

/-- What the one-byte read at the address `i` returns during the scan. -/
def probe {σ : Type} (hal : Hal σ) (s : σ) (i : Nat) : Int :=
  (hal.read 1 (hal.prepare i prepare_flags.FLAG_PREPARE_DATA (scan_dev hal s i))).1

/-- The cell of the address `a` when the probes return `r`. -/
def scan_cell (r : Nat → Int) (a : Nat) : String :=
  if a ≠ 0 ∧ r a = 1 then "0x" ++ fmt_02X a ++ " " else "____ "

/-- What the scan prints at the address `i`: the row label in front of the first cell of a
row, the cell, the line end behind the last cell of a row. -/
def scan_chunks (cell : Nat → String) (i : Nat) : List String :=
  (if i % 16 = 0 then ["0x" ++ fmt_02X i ++ ":"] else []) ++ [cell i] ++
    (if i % 16 = 15 then ["\n"] else [])

/-- The calls the scan makes at the address `i`. -/
def scan_calls (r : Nat → Int) (i : Nat) : List Call :=
  if i = 0 then [] else [Call.prepare i prepare_flags.FLAG_PREPARE_DATA, Call.read 1 (r i)]

/-- State of the driver when the register transfer of read or write starts. -/
def transfer_dev {σ : Type} (hal : Hal σ) (o : options_t) (s : σ) : σ :=
  hal.prepare o.slave_addr prepare_flags.by_default (opened_dev hal o s)

/-- What the register read returns: result, bytes delivered, next state. -/
def read_outcome {σ : Type} (hal : Hal σ) (o : options_t) (s : σ) : Int × List Nat × σ :=
  hal.read_loc o.offset o.nbytes (transfer_dev hal o s)

/-- What the register write returns: result and next state. -/
def write_outcome {σ : Type} (hal : Hal σ) (o : options_t) (s : σ) : Int × σ :=
  hal.write_loc o.offset [to_u8 o.value] (transfer_dev hal o s)

/-- The map form of a byte line: the pair of the register, offset plus index, and the byte. -/
def map_line (offset : Int) (i : Nat) (b : Nat) : String :=
  "\x7b 0x" ++ fmt_02X (to_u32 (offset + i)) ++ ", 0x" ++ fmt_02X b ++ " \x7d,\n"

/-- The line printed for the byte `b` at index `i`, in the form the options select. -/
def byte_line (o : options_t) (i : Nat) (b : Nat) : String :=
  if o.is_map then map_line o.offset i b
  else "Reg[" ++ fmt_03d (int_add i o.offset) ++ " or 0x" ++ fmt_02X (to_u32 (int_add i o.offset)) ++
    "] = " ++ fmt_03d b ++ " or 0x" ++ fmt_02X b ++ "\n"

/-- The header `main` prints before calling `read_bus`. -/
def read_banner (o : options_t) : String :=
  "Read: " ++ fmt_d o.nbytes ++ " bytes from 0x" ++ fmt_X o.slave_addr ++ " at " ++
    fmt_d o.offset ++ "\n"

/-- The header `read_bus` prints before the transfer. -/
def read_header (o : options_t) : String :=
  "Read 0x" ++ fmt_X o.slave_addr ++ " " ++ fmt_d o.offset ++ " " ++ fmt_d o.nbytes ++ "\n"

/-- The diagnostic of a failed read: target address and error code of the interface. -/
def read_diagnostic (o : options_t) (e : Int) : String :=
  "Failed to read 0x" ++ fmt_X o.slave_addr ++ " (" ++ fmt_d e ++ ")\n"

/-- The header `main` prints before calling `write_bus`. -/
def write_banner (o : options_t) : String :=
  "Write: " ++ fmt_d o.value ++ " to " ++ fmt_d o.offset ++ " on 0x" ++ fmt_X o.slave_addr ++ "\n"

/-- The diagnostic of a failed write. -/
def write_diagnostic (o : options_t) (e : Int) : String :=
  "Failed to write 0x" ++ fmt_X o.slave_addr ++ " (" ++ fmt_d e ++ ")\n"

/-- The summary line, as the two pieces `main` prints. -/
def summary (o : options_t) : List String :=
  [ "I2C Port:" ++ fmt_d o.port ++ " Bitrate:" ++ fmt_ld o.attr.freq ++ "bps PU:" ++
      (if o.attr.o_flags.IS_PULLUP then "1" else "0"),
    if o.attr.pin_assignment.sda.port ≠ 255 then
      " sda:" ++ fmt_d o.attr.pin_assignment.sda.port ++ "." ++
        fmt_d o.attr.pin_assignment.sda.pin ++ " scl:" ++
        fmt_d o.attr.pin_assignment.scl.port ++ "." ++
        fmt_d o.attr.pin_assignment.scl.pin ++ "\n"
    else " default pin assignment\n" ]

/-- The text `s` is a non-empty run of decimal digits whose value is `n`. -/
def denotes (s : String) (n : Nat) : Prop :=
  s.toList ≠ [] ∧ (∀ c ∈ s.toList, c.isDigit = true) ∧
    n = Nat.ofDigits 10 (s.toList.reverse.map (fun c => c.toNat - 48))

/-- The attributes handed to the first `set_attributes` call of a trace. -/
def attr_passed : List Call → Option i2c_attr_t
  | [] => none
  | Call.set_attributes a _ :: _ => some a
  | _ :: t => attr_passed t

/-- A driver like the sample one whose register read stops after two bytes, 0x11 and 0x22,
whatever length is asked for. -/
def shortHal : Hal Nat :=
  { sampleHal with read_loc := fun _ _ s => (2, [17, 34], s) }

/-- A driver like the sample one whose register read fails with -1 and error code 5. -/
def deafHal : Hal Nat :=
  { sampleHal with read_loc := fun _ _ s => (-1, [], s), get_error := fun _ => 5 }

/-- The invocation `--action=read --address=0x4C --offset=0 --nbytes=4`. -/
def readArgs : CliArgs :=
  { bare with action := "read", address := "0x4C", offset := "0", nbytes := "4" }

/-- The invocation `--action=write --address=0x4C --offset=0 --value=5`. -/
def writeArgs : CliArgs :=
  { bare with action := "write", address := "0x4C", offset := "0", value := "5" }

/-- The output of a read is the summary line, the two headers and one diagnostic line. -/
def reports_read_failure {σ : Type} (hal : Hal σ) (cli : CliArgs) (s : σ) : Prop :=
  (main hal cli (World.init s)).world.out =
    summary (resolve_options hal cli ACTION_READ) ++
      [read_banner (resolve_options hal cli ACTION_READ),
       read_header (resolve_options hal cli ACTION_READ),
       read_diagnostic (resolve_options hal cli ACTION_READ)
         (hal.get_error (read_outcome hal (resolve_options hal cli ACTION_READ) s).2.2)]

/-- The output of a write is the summary line and nothing else. -/
def prints_only_summary {σ : Type} (hal : Hal σ) (cli : CliArgs) (s : σ) : Prop :=
  (main hal cli (World.init s)).world.out = summary (resolve_options hal cli ACTION_WRITE)

/-! ## Lemmas and claims

Helper lemmas come before the claim they serve; each claim carries its identifier. -/

theorem show_usage_eq {σ : Type} (cli : CliArgs) (w : World σ) :
    show_usage cli w = Step.exit 0 { w with out := w.out ++ usage_text cli } := by
  simp [show_usage, World.printf, usage_text]

/-- A refused argument set: one diagnostic, the usage text, nothing else. -/
theorem main_refuses {σ : Type} (hal : Hal σ) (cli : CliArgs) (w : World σ)
    (hhelp : no_help cli) (hbad : fails_validation cli) :
    ∃ diag, diag ∈ diagnostics ∧
      main hal cli w = Step.exit 0 { w with out := w.out ++ diag :: usage_text cli } := by
  obtain ⟨h1, h2⟩ := hhelp
  rcases hbad with ⟨hs, hr, hw⟩ | ⟨hw, hreq⟩ | ⟨hr, hreq⟩
  · refine ⟨_, List.mem_cons_self _ _, ?_⟩
    simp [main, h1, h2, hs, hr, hw, show_usage_eq, World.printf]
  · by_cases ho : cli.offset = ""
    · refine ⟨"error: specify offset value with --offset=<value>\n", by simp [diagnostics], ?_⟩
      simp [main, h1, h2, hw, check_and_run, is_empty, ho, show_usage_eq, World.printf]
    · by_cases hv : cli.value = ""
      · refine ⟨"error: specify write value with --value=<value>\n", by simp [diagnostics], ?_⟩
        simp [main, h1, h2, hw, check_and_run, is_empty, ho, hv, show_usage_eq, World.printf]
      · have ha : cli.address = "" := by
          rcases hreq with h | h | h
          · exact h
          · exact absurd h ho
          · exact absurd h hv
        refine ⟨"error: specify slave address with --address=<value>\n",
          by simp [diagnostics], ?_⟩
        simp [main, h1, h2, hw, check_and_run, is_empty, ho, hv, ha, show_usage_eq, World.printf]
  · by_cases ho : cli.offset = ""
    · refine ⟨"error: specify offset value with --offset=<value>\n", by simp [diagnostics], ?_⟩
      simp [main, h1, h2, hr, check_and_run, is_empty, ho, show_usage_eq, World.printf]
    · have ha : cli.address = "" := by
        rcases hreq with h | h
        · exact h
        · exact absurd h ho
      refine ⟨"error: specify slave address with --address=<value>\n",
        by simp [diagnostics], ?_⟩
      simp [main, h1, h2, hr, check_and_run, is_empty, ho, ha, show_usage_eq, World.printf]

/-- Claim C1. When neither help switch is given and the action is none of scan, read, write,
or is write with an empty address, offset or value, or is read with an empty address or
offset, the program prints one diagnostic followed by the usage text, ends there, and has
made no call on the I2C object (the trace is empty and the driver state untouched). -/
theorem validation_gate {σ : Type} (hal : Hal σ) (cli : CliArgs) (s : σ)
    (hhelp : no_help cli) (hbad : fails_validation cli) :
    (main hal cli (World.init s)).status ≠ none ∧
    (∃ diag, diag ∈ diagnostics ∧
      (main hal cli (World.init s)).world.out = diag :: usage_text cli) ∧
    (main hal cli (World.init s)).world.trace = [] ∧
    (main hal cli (World.init s)).world.dev = s := by
  obtain ⟨diag, hmem, h⟩ := main_refuses hal cli (World.init s) hhelp hbad
  rw [h]
  exact ⟨by simp [Step.status], ⟨diag, hmem, by simp [Step.world, World.init]⟩,
    by simp [Step.world, World.init], by simp [Step.world, World.init]⟩

/-- Witness of C1: `--action=write --address=0x4C --offset=0` with no value. -/
theorem validation_gate_witness :
    no_help { bare with action := "write", address := "0x4C", offset := "0" } ∧
    fails_validation { bare with action := "write", address := "0x4C", offset := "0" } ∧
    (main sampleHal { bare with action := "write", address := "0x4C", offset := "0" }
      (World.init 0)).world.trace = [] :=
  ⟨by simp [no_help, bare], by simp [fails_validation, bare],
    (validation_gate sampleHal { bare with action := "write", address := "0x4C", offset := "0" } 0
      (by simp [no_help, bare]) (by simp [fails_validation, bare])).2.2.1⟩

/-- Claim C2, the code at a refused invocation: `--action=erase` prints the action
diagnostic and the usage text and the process ends with status 0, the status of success. -/
theorem refused_invocation_status :
    fails_validation { bare with action := "erase" } ∧
    main sampleHal { bare with action := "erase" } (World.init 0) =
      Step.exit 0 { World.init 0 with
        out := "error: specify action with --action=[read|write|scan]\n" ::
          usage_text { bare with action := "erase" } } := by
  refine ⟨by simp [fails_validation, bare], ?_⟩
  simp [main, bare, show_usage_eq, World.printf, World.init]

theorem scan_step_eq {σ : Type} (hal : Hal σ) (s : σ) (w : World σ) (i : Nat)
    (hdev : w.dev = scan_dev hal s i) :
    scan_step hal w i =
      { w with
        dev := scan_dev hal s (i + 1)
        out := w.out ++ scan_chunks (scan_cell (probe hal s)) i
        trace := w.trace ++ scan_calls (probe hal s) i } := by
  by_cases h0 : i = 0
  · subst h0
    simp [scan_step, scan_chunks, scan_cell, scan_calls, scan_dev, World.printf, hdev]
  · by_cases h16 : i % 16 = 0 <;> by_cases h15 : i % 16 = 15 <;>
      by_cases hr : probe hal s i = 1 <;>
      simp [scan_step, scan_chunks, scan_cell, scan_calls, scan_dev, World.printf, World.call,
        hdev, h0, h16, h15, hr, probe] <;> simp_all [probe]

theorem scan_fold {σ : Type} (hal : Hal σ) (w : World σ) (n : Nat) :
    (List.range n).foldl (scan_step hal) w =
      { w with
        dev := scan_dev hal w.dev n
        out := w.out ++ (List.range n).flatMap (scan_chunks (scan_cell (probe hal w.dev)))
        trace := w.trace ++ (List.range n).flatMap (scan_calls (probe hal w.dev)) } := by
  induction n with
  | zero => simp [scan_dev]
  | succ n ih =>
    rw [List.range_succ, List.foldl_append, ih]
    simp only [List.foldl_cons, List.foldl_nil]
    rw [scan_step_eq hal w.dev _ n rfl]
    simp [List.flatMap_append]

theorem i2c_open_ok {σ : Type} (hal : Hal σ) (o : options_t) (w : World σ)
    (h : opens_ok hal o w.dev) :
    i2c_open hal o w =
      Step.cont { w with dev := opened_dev hal o w.dev, trace := w.trace ++ open_calls hal o w.dev } := by
  obtain ⟨h1, h2⟩ := h
  simp [i2c_open, World.call, opened_dev, open_calls, not_lt.mpr h1, not_lt.mpr h2]

theorem scan_bus_ok {σ : Type} (hal : Hal σ) (o : options_t) (w : World σ)
    (h : opens_ok hal o w.dev) :
    scan_bus hal o w =
      Step.cont { w with
        dev := hal.close (scan_dev hal (opened_dev hal o w.dev) 128)
        out := w.out ++ (List.range 128).flatMap
          (scan_chunks (scan_cell (probe hal (opened_dev hal o w.dev)))) ++ ["\n"]
        trace := w.trace ++ open_calls hal o w.dev ++ (List.range 128).flatMap
          (scan_calls (probe hal (opened_dev hal o w.dev))) ++ [Call.close] } := by
  simp only [scan_bus, i2c_open_ok hal o w h, scan_fold]
  simp [World.printf, World.call]

set_option maxRecDepth 100000 in
theorem grid_rows (cell : Nat → String) :
    (List.range 128).flatMap (scan_chunks cell) =
      (List.range 8).flatMap (fun r =>
        ("0x" ++ fmt_02X (16 * r) ++ ":") :: (List.range 16).map (fun c => cell (16 * r + c)) ++
          ["\n"]) := by
  rfl

set_option maxRecDepth 100000 in
theorem probe_calls (r : Nat → Int) :
    (List.range 128).flatMap (scan_calls r) =
      (List.range 127).flatMap (fun k =>
        [Call.prepare (k + 1) prepare_flags.FLAG_PREPARE_DATA, Call.read 1 (r (k + 1))]) := by
  rfl

theorem to_u32_int_add (a b : Int) : to_u32 (int_add a b) = to_u32 (a + b) := by
  unfold to_u32 int_add
  simp only
  split
  · rw [Int.emod_emod_of_dvd _ (dvd_refl _)]
  · rw [Int.sub_emod, Int.emod_emod_of_dvd _ (dvd_refl _)]
    simp

/-- A negative byte count stops `read_bus` at the array declaration: no call is made on the
driver and nothing is printed. -/
theorem read_bus_negative {σ : Type} (hal : Hal σ) (o : options_t) (w : World σ)
    (h : o.nbytes < 0) : read_bus hal o w = Step.fault w := by
  simp [read_bus, h]

theorem buffer_after_length (n : Int) (data : List Nat) :
    (buffer_after n data).length = n.toNat := by
  simp [buffer_after]

theorem read_step_eq {σ : Type} (o : options_t) (buf : List Nat) (w : World σ) (i : Nat)
    (hi : i < buf.length) :
    read_step o buf (Step.cont w) i =
      Step.cont { w with out := w.out ++ [byte_line o i (buf.getD i 0)] } := by
  by_cases hm : o.is_map = true <;>
    simp [read_step, World.printf, hm, not_le.mpr hi, byte_line, map_line, to_u32_int_add,
      add_comm (i : Int)]

theorem read_fold {σ : Type} (o : options_t) (buf : List Nat) (w : World σ) (n : Nat)
    (hn : n ≤ buf.length) :
    (List.range n).foldl (read_step o buf) (Step.cont w) =
      Step.cont { w with
        out := w.out ++ (List.range n).map (fun i => byte_line o i (buf.getD i 0)) } := by
  induction n with
  | zero => simp
  | succ n ih =>
    rw [List.range_succ, List.foldl_append, ih (by omega)]
    simp only [List.foldl_cons, List.foldl_nil]
    rw [read_step_eq o buf _ n (by omega)]
    simp

theorem read_step_trace {σ : Type} (o : options_t) (buf : List Nat) (st : Step σ) (i : Nat) :
    (read_step o buf st i).world.trace = st.world.trace := by
  cases st with
  | cont w =>
    by_cases hl : buf.length ≤ i <;> by_cases hm : o.is_map = true <;>
      simp [read_step, hl, hm, Step.world, World.printf]
  | exit c w => rfl
  | fault w => rfl

theorem read_fold_trace {σ : Type} (o : options_t) (buf : List Nat) (l : List Nat)
    (st : Step σ) :
    (l.foldl (read_step o buf) st).world.trace = st.world.trace := by
  induction l generalizing st with
  | nil => rfl
  | cons i l ih => rw [List.foldl_cons, ih, read_step_trace]

theorem read_bus_ok {σ : Type} (hal : Hal σ) (o : options_t) (w : World σ)
    (h : opens_ok hal o w.dev) (hn : 0 ≤ o.nbytes)
    (hle : (read_outcome hal o w.dev).1 ≤ o.nbytes) :
    read_bus hal o w = Step.cont
      { dev := hal.close (read_outcome hal o w.dev).2.2
        out := w.out ++ read_header o ::
          (if 0 < (read_outcome hal o w.dev).1 then
            (List.range (read_outcome hal o w.dev).1.toNat).map (fun i =>
              byte_line o i ((buffer_after o.nbytes (read_outcome hal o w.dev).2.1).getD i 0))
          else [read_diagnostic o (hal.get_error (read_outcome hal o w.dev).2.2)])
        err := w.err
        trace := w.trace ++ open_calls hal o w.dev ++
          [Call.prepare o.slave_addr prepare_flags.by_default,
           Call.read_loc o.offset o.nbytes (read_outcome hal o w.dev).1] ++
          (if 0 < (read_outcome hal o w.dev).1 then []
           else [Call.get_error (hal.get_error (read_outcome hal o w.dev).2.2)]) ++
          [Call.close] } := by
  have hlen : (read_outcome hal o w.dev).1.toNat ≤
      (buffer_after o.nbytes (read_outcome hal o w.dev).2.1).length := by
    rw [buffer_after_length]
    omega
  by_cases hret : 0 < (read_outcome hal o w.dev).1
  · have hret2 : 0 < (hal.read_loc o.offset o.nbytes
        (hal.prepare o.slave_addr prepare_flags.by_default (opened_dev hal o w.dev))).1 := hret
    have hf := read_fold o (buffer_after o.nbytes (read_outcome hal o w.dev).2.1)
      { dev := (read_outcome hal o w.dev).2.2
        out := w.out ++ [read_header o]
        err := w.err
        trace := w.trace ++ open_calls hal o w.dev ++
          [Call.prepare o.slave_addr prepare_flags.by_default,
           Call.read_loc o.offset o.nbytes (read_outcome hal o w.dev).1] }
      (read_outcome hal o w.dev).1.toNat hlen
    simp only [read_bus, if_neg (not_lt.mpr hn), i2c_open_ok hal o w h, World.call,
      World.printf, gt_iff_lt, hret2, if_true]
    simp only [read_outcome, transfer_dev, read_header, List.append_assoc, List.cons_append,
      List.nil_append] at hf ⊢
    rw [hf]
    simp [hret2]
  · have hret2 : ¬ 0 < (hal.read_loc o.offset o.nbytes
        (hal.prepare o.slave_addr prepare_flags.by_default (opened_dev hal o w.dev))).1 := hret
    simp [read_bus, not_lt.mpr hn, i2c_open_ok hal o w h, World.call, World.printf, hret2,
      read_outcome, transfer_dev, read_header, read_diagnostic]

theorem write_bus_ok {σ : Type} (hal : Hal σ) (o : options_t) (w : World σ)
    (h : opens_ok hal o w.dev) :
    write_bus hal o w = Step.cont
      { w with
        dev := hal.close (write_outcome hal o w.dev).2
        out := w.out ++
          (if (write_outcome hal o w.dev).1 < 0 then
            [write_diagnostic o (hal.get_error (write_outcome hal o w.dev).2)]
          else [])
        trace := w.trace ++ open_calls hal o w.dev ++
          [Call.prepare o.slave_addr prepare_flags.by_default,
           Call.write_loc o.offset [to_u8 o.value] (write_outcome hal o w.dev).1] ++
          (if (write_outcome hal o w.dev).1 < 0 then
            [Call.get_error (hal.get_error (write_outcome hal o w.dev).2)]
          else []) ++ [Call.close] } := by
  by_cases hret : (write_outcome hal o w.dev).1 < 0
  · have hret2 : (hal.write_loc o.offset [to_u8 o.value]
        (hal.prepare o.slave_addr prepare_flags.by_default (opened_dev hal o w.dev))).1 < 0 := hret
    simp [write_bus, i2c_open_ok hal o w h, World.call, World.printf, write_outcome,
      transfer_dev, write_diagnostic, hret2]
  · have hret2 : ¬ (hal.write_loc o.offset [to_u8 o.value]
        (hal.prepare o.slave_addr prepare_flags.by_default (opened_dev hal o w.dev))).1 < 0 := hret
    simp [write_bus, i2c_open_ok hal o w h, World.call, World.printf, write_outcome,
      transfer_dev, hret2]

theorem print_summary_eq {σ : Type} (o : options_t) (w : World σ) :
    print_summary o w = { w with out := w.out ++ summary o } := by
  by_cases h : o.attr.pin_assignment.sda.port = 255 <;>
    simp [print_summary, summary, World.printf, h]

theorem main_scan_eq {σ : Type} (hal : Hal σ) (cli : CliArgs) (w : World σ)
    (hhelp : no_help cli) (hact : cli.action = "scan") :
    main hal cli w =
      match scan_bus hal (resolve_options hal cli ACTION_SCAN)
        { w with out := w.out ++ summary (resolve_options hal cli ACTION_SCAN) } with
      | Step.exit c w => Step.exit c w
      | Step.cont w => Step.exit 0 w
      | Step.fault w => Step.fault w := by
  obtain ⟨h1, h2⟩ := hhelp
  simp [main, h1, h2, hact, check_and_run, dispatch, print_summary_eq, resolve_options]

theorem main_read_eq {σ : Type} (hal : Hal σ) (cli : CliArgs) (w : World σ)
    (hhelp : no_help cli) (hact : cli.action = "read") (haddr : cli.address ≠ "")
    (hoff : cli.offset ≠ "") :
    main hal cli w =
      match read_bus hal (resolve_options hal cli ACTION_READ)
        { w with out := w.out ++ summary (resolve_options hal cli ACTION_READ) ++
            [read_banner (resolve_options hal cli ACTION_READ)] } with
      | Step.exit c w => Step.exit c w
      | Step.cont w => Step.exit 0 w
      | Step.fault w => Step.fault w := by
  obtain ⟨h1, h2⟩ := hhelp
  have e1 : ACTION_READ ≠ ACTION_SCAN := by decide
  simp [main, h1, h2, hact, check_and_run, dispatch, print_summary_eq, resolve_options,
    is_empty, haddr, hoff, e1, World.printf, read_banner]

theorem main_write_eq {σ : Type} (hal : Hal σ) (cli : CliArgs) (w : World σ)
    (hhelp : no_help cli) (hact : cli.action = "write") (haddr : cli.address ≠ "")
    (hoff : cli.offset ≠ "") (hval : cli.value ≠ "") :
    main hal cli w =
      match write_bus hal (resolve_options hal cli ACTION_WRITE)
        { w with out := w.out ++ summary (resolve_options hal cli ACTION_WRITE) ++
            [write_banner (resolve_options hal cli ACTION_WRITE)] } with
      | Step.exit c w => Step.exit c w
      | Step.cont w => Step.exit 0 w
      | Step.fault w => Step.fault w := by
  obtain ⟨h1, h2⟩ := hhelp
  have e1 : ACTION_WRITE ≠ ACTION_SCAN := by decide
  have e2 : ACTION_WRITE ≠ ACTION_READ := by decide
  simp [main, h1, h2, hact, check_and_run, dispatch, print_summary_eq, resolve_options,
    is_empty, haddr, hoff, hval, e1, e2, World.printf, write_banner]

theorem main_scan_ok {σ : Type} (hal : Hal σ) (cli : CliArgs) (s : σ)
    (hhelp : no_help cli) (hact : cli.action = "scan")
    (hopen : opens_ok hal (resolve_options hal cli ACTION_SCAN) s) :
    main hal cli (World.init s) = Step.exit 0
      { dev := hal.close
          (scan_dev hal (opened_dev hal (resolve_options hal cli ACTION_SCAN) s) 128)
        out := summary (resolve_options hal cli ACTION_SCAN) ++ (List.range 128).flatMap
          (scan_chunks (scan_cell
            (probe hal (opened_dev hal (resolve_options hal cli ACTION_SCAN) s)))) ++ ["\n"]
        err := []
        trace := open_calls hal (resolve_options hal cli ACTION_SCAN) s ++
          (List.range 128).flatMap (scan_calls
            (probe hal (opened_dev hal (resolve_options hal cli ACTION_SCAN) s))) ++ [Call.close]
} := by
  rw [main_scan_eq hal cli _ hhelp hact, scan_bus_ok hal _ _ hopen]
  simp [World.init]

theorem scan_cell_length (r : Nat → Int) : ∀ a, a < 128 → (scan_cell r a).length = 5 := by
  have h : ∀ a, a < 128 → ("0x" ++ fmt_02X a ++ " ").length = 5 := by decide
  intro a ha
  unfold scan_cell
  split
  · exact h a ha
  · rfl

/-- Claim C3. In a scan on a bus that opens and takes its attributes, whatever the driver
does: the calls after the opening are, for the addresses 1 to 127 in ascending order, one
`prepare` of the address followed by one read of one byte, then `close`, so that address 0
is never probed. The result recorded for the read at the address `a` is what the driver
itself returns there: `hal.read 1` in the state reached by `hal.prepare a` from the state
the scan has brought the driver to (`scan_dev`, which starts from the opened state, does
not move at address 0 and moves through `prepare` and `read` at every other address). The
cell of address 0 is the placeholder, and the cell of an address from 1 to 127 is `0xNN `
when that read returned 1 and the placeholder otherwise. -/
theorem scan_probes {σ : Type} (hal : Hal σ) (cli : CliArgs) (s : σ)
    (hhelp : no_help cli) (hact : cli.action = "scan")
    (hopen : opens_ok hal (resolve_options hal cli ACTION_SCAN) s) :
    (main hal cli (World.init s)).world.trace =
      open_calls hal (resolve_options hal cli ACTION_SCAN) s ++
        (List.range 127).flatMap (fun k =>
          [Call.prepare (k + 1) prepare_flags.FLAG_PREPARE_DATA,
           Call.read 1 (hal.read 1 (hal.prepare (k + 1) prepare_flags.FLAG_PREPARE_DATA
             (scan_dev hal (opened_dev hal (resolve_options hal cli ACTION_SCAN) s)
               (k + 1)))).1]) ++
        [Call.close] ∧
    (scan_dev hal (opened_dev hal (resolve_options hal cli ACTION_SCAN) s) 1 =
        opened_dev hal (resolve_options hal cli ACTION_SCAN) s ∧
      ∀ a, 1 ≤ a →
        scan_dev hal (opened_dev hal (resolve_options hal cli ACTION_SCAN) s) (a + 1) =
          (hal.read 1 (hal.prepare a prepare_flags.FLAG_PREPARE_DATA
            (scan_dev hal (opened_dev hal (resolve_options hal cli ACTION_SCAN) s) a))).2) ∧
    ∃ cell : Nat → String,
      (main hal cli (World.init s)).world.out =
        summary (resolve_options hal cli ACTION_SCAN) ++
          (List.range 128).flatMap (scan_chunks cell) ++ ["\n"] ∧
      cell 0 = "____ " ∧
      ∀ a, 1 ≤ a → a ≤ 127 →
        ((hal.read 1 (hal.prepare a prepare_flags.FLAG_PREPARE_DATA
            (scan_dev hal (opened_dev hal (resolve_options hal cli ACTION_SCAN) s) a))).1 = 1 →
          cell a = "0x" ++ fmt_02X a ++ " ") ∧
        ((hal.read 1 (hal.prepare a prepare_flags.FLAG_PREPARE_DATA
            (scan_dev hal (opened_dev hal (resolve_options hal cli ACTION_SCAN) s) a))).1 ≠ 1 →
          cell a = "____ ") := by
  refine ⟨?_, ⟨rfl, ?_⟩,
    scan_cell (probe hal (opened_dev hal (resolve_options hal cli ACTION_SCAN) s)), ?_, ?_, ?_⟩
  · rw [main_scan_ok hal cli s hhelp hact hopen, probe_calls]
    rfl
  · intro a ha
    have h0 : a ≠ 0 := by omega
    simp [scan_dev, h0]
  · rw [main_scan_ok hal cli s hhelp hact hopen]
    rfl
  · simp [scan_cell]
  · intro a h1 _
    have h0 : a ≠ 0 := by omega
    constructor
    · intro hr
      have hp : probe hal (opened_dev hal (resolve_options hal cli ACTION_SCAN) s) a = 1 := hr
      simp [scan_cell, h0, hp]
    · intro hr
      have hp : probe hal (opened_dev hal (resolve_options hal cli ACTION_SCAN) s) a ≠ 1 := hr
      simp [scan_cell, hp]

set_option maxHeartbeats 2000000 in
set_option maxRecDepth 1000000 in
/-- Witness of C3: a scan on the sample driver, where the reads at 0x10 and 0x42 return 1
and the 125 others return -1; among the pieces of output that end in a blank, which are the cells, the only
ones that are not the placeholder are those of 0x10 and 0x42. -/
theorem scan_probes_witness :
    (no_help { bare with action := "scan" } ∧
     opens_ok sampleHal
       (resolve_options sampleHal { bare with action := "scan" } ACTION_SCAN) 0) ∧
    (main sampleHal { bare with action := "scan" } (World.init 0)).world.trace =
      open_calls sampleHal (resolve_options sampleHal { bare with action := "scan" } ACTION_SCAN) 0 ++
        (List.range 127).flatMap (fun k =>
          [Call.prepare (k + 1) prepare_flags.FLAG_PREPARE_DATA,
           Call.read 1 (sampleHal.read 1 (sampleHal.prepare (k + 1)
             prepare_flags.FLAG_PREPARE_DATA
             (scan_dev sampleHal (opened_dev sampleHal
               (resolve_options sampleHal { bare with action := "scan" } ACTION_SCAN) 0)
               (k + 1)))).1]) ++
        [Call.close] ∧
    (main sampleHal { bare with action := "scan" } (World.init 0)).world.trace.count
      (Call.read 1 1) = 2 ∧
    (main sampleHal { bare with action := "scan" } (World.init 0)).world.trace.count
      (Call.read 1 (-1)) = 125 ∧
    (main sampleHal { bare with action := "scan" } (World.init 0)).world.trace.length = 257 ∧
    (main sampleHal { bare with action := "scan" } (World.init 0)).world.out.filter
      (fun c => c.toList.getLast? == some ' ' && c != "____ ") = ["0x10 ", "0x42 "] :=
  ⟨⟨by simp [no_help, bare], by simp [opens_ok, sampleHal]⟩,
    (scan_probes sampleHal { bare with action := "scan" } 0 (by simp [no_help, bare]) rfl
      (by simp [opens_ok, sampleHal])).1,
    by decide, by decide, by decide, by decide⟩

/-- Claim C4. In a scan on a bus that opens and takes its attributes the output after the
summary line is eight rows and a final line end; row `r` is the label `0xNN:` of its first
address `16 * r`, the sixteen cells of the addresses `16 * r` to `16 * r + 15` in ascending
order, and a line end. Every cell is either the placeholder or `0xNN ` for its own address,
and every cell is five characters wide. -/
theorem scan_grid {σ : Type} (hal : Hal σ) (cli : CliArgs) (s : σ)
    (hhelp : no_help cli) (hact : cli.action = "scan")
    (hopen : opens_ok hal (resolve_options hal cli ACTION_SCAN) s) :
    ∃ cell : Nat → String,
      (main hal cli (World.init s)).world.out =
        summary (resolve_options hal cli ACTION_SCAN) ++
          (List.range 8).flatMap (fun r =>
            ("0x" ++ fmt_02X (16 * r) ++ ":") ::
              (List.range 16).map (fun c => cell (16 * r + c)) ++ ["\n"]) ++ ["\n"] ∧
      (∀ r, r < 8 → (fmt_02X (16 * r)).length = 2) ∧
      ∀ a, a < 128 →
        (cell a = "____ " ∨ cell a = "0x" ++ fmt_02X a ++ " ") ∧ (cell a).length = 5 := by
  refine ⟨scan_cell (probe hal (opened_dev hal (resolve_options hal cli ACTION_SCAN) s)),
    ?_, by decide, ?_⟩
  · rw [main_scan_ok hal cli s hhelp hact hopen, ← grid_rows]
    rfl
  · intro a ha
    refine ⟨?_, scan_cell_length _ a ha⟩
    unfold scan_cell
    split
    · exact Or.inr rfl
    · exact Or.inl rfl

set_option maxRecDepth 1000000 in
/-- Witness of C4: on the sample driver exactly the devices at 0x10 and 0x42 answer; the
grid holds 126 placeholders and the two cells `0x10 ` and `0x42 `, in rows 1 and 4. -/
theorem scan_grid_witness :
    no_help { bare with action := "scan" } ∧
    opens_ok sampleHal (resolve_options sampleHal { bare with action := "scan" } ACTION_SCAN) 0 ∧
    (∃ cell : Nat → String,
      (main sampleHal { bare with action := "scan" } (World.init 0)).world.out =
        summary (resolve_options sampleHal { bare with action := "scan" } ACTION_SCAN) ++
          (List.range 8).flatMap (fun r =>
            ("0x" ++ fmt_02X (16 * r) ++ ":") ::
              (List.range 16).map (fun c => cell (16 * r + c)) ++ ["\n"]) ++ ["\n"] ∧
      (∀ r, r < 8 → (fmt_02X (16 * r)).length = 2) ∧
      ∀ a, a < 128 →
        (cell a = "____ " ∨ cell a = "0x" ++ fmt_02X a ++ " ") ∧ (cell a).length = 5) ∧
    (main sampleHal { bare with action := "scan" } (World.init 0)).world.out.count "____ " = 126 ∧
    (main sampleHal { bare with action := "scan" } (World.init 0)).world.out.count "0x10 " = 1 ∧
    (main sampleHal { bare with action := "scan" } (World.init 0)).world.out.count "0x42 " = 1 ∧
    (main sampleHal { bare with action := "scan" } (World.init 0)).world.out.length = 147 :=
  ⟨by simp [no_help, bare], by simp [opens_ok, sampleHal],
    scan_grid sampleHal { bare with action := "scan" } 0 (by simp [no_help, bare]) rfl
      (by simp [opens_ok, sampleHal]),
    by decide, by decide, by decide, by decide⟩

theorem buffer_after_getD (n : Int) (data : List Nat) (i : Nat) (hi : i < n.toNat) :
    (buffer_after n data).getD i 0 = data.getD i 0 % 256 := by
  simp [buffer_after, List.getD_eq_getElem?_getD, List.getElem?_map, List.getElem?_range hi]

theorem main_read_ok {σ : Type} (hal : Hal σ) (cli : CliArgs) (s : σ)
    (hhelp : no_help cli) (hact : cli.action = "read") (haddr : cli.address ≠ "")
    (hoff : cli.offset ≠ "") (hopen : opens_ok hal (resolve_options hal cli ACTION_READ) s)
    (hn : 0 ≤ (resolve_options hal cli ACTION_READ).nbytes)
    (hle : (read_outcome hal (resolve_options hal cli ACTION_READ) s).1 ≤
      (resolve_options hal cli ACTION_READ).nbytes) :
    (main hal cli (World.init s)).world.out =
      summary (resolve_options hal cli ACTION_READ) ++
        [read_banner (resolve_options hal cli ACTION_READ),
         read_header (resolve_options hal cli ACTION_READ)] ++
        (if 0 < (read_outcome hal (resolve_options hal cli ACTION_READ) s).1 then
          (List.range (read_outcome hal (resolve_options hal cli ACTION_READ) s).1.toNat).map
            (fun i => byte_line (resolve_options hal cli ACTION_READ) i
              ((buffer_after (resolve_options hal cli ACTION_READ).nbytes
                (read_outcome hal (resolve_options hal cli ACTION_READ) s).2.1).getD i 0))
        else [read_diagnostic (resolve_options hal cli ACTION_READ)
          (hal.get_error (read_outcome hal (resolve_options hal cli ACTION_READ) s).2.2)]) := by
  have hu := read_bus_ok hal (resolve_options hal cli ACTION_READ)
    { World.init s with
      out := ((World.init s).out ++ summary (resolve_options hal cli ACTION_READ) ++
        [read_banner (resolve_options hal cli ACTION_READ)]) } hopen hn hle
  rw [main_read_eq hal cli _ hhelp hact haddr hoff, hu]
  simp [Step.world, World.init]

/-- Claim C5. A read with `--map=true` on a bus that opens, whose register read returns
the full count `N = byteCount ≥ 1` and delivers the bytes `data` (each from 0 to 255),
prints the summary line, the two header lines and then exactly `N` lines, the line of index
`i` being the pair of the register `offset + i` and the byte `data[i]`, both as `0x` and
at least two upper-case hexadecimal digits, between braces and followed by a comma. -/
theorem read_map_lines {σ : Type} (hal : Hal σ) (cli : CliArgs) (s : σ) (data : List Nat)
    (hhelp : no_help cli) (hact : cli.action = "read") (haddr : cli.address ≠ "")
    (hoff : cli.offset ≠ "") (hmap : cli.map = "true")
    (hopen : opens_ok hal (resolve_options hal cli ACTION_READ) s)
    (hlen : 1 ≤ data.length) (hbyte : ∀ b ∈ data, b < 256)
    (hn : (resolve_options hal cli ACTION_READ).nbytes = data.length)
    (hret : (read_outcome hal (resolve_options hal cli ACTION_READ) s).1 = data.length)
    (hdata : (read_outcome hal (resolve_options hal cli ACTION_READ) s).2.1 = data) :
    (main hal cli (World.init s)).world.out =
      summary (resolve_options hal cli ACTION_READ) ++
        [read_banner (resolve_options hal cli ACTION_READ),
         read_header (resolve_options hal cli ACTION_READ)] ++
        (List.range data.length).map (fun i =>
          map_line (to_integer cli.offset) i (data.getD i 0)) := by
  rw [main_read_ok hal cli s hhelp hact haddr hoff hopen (by rw [hn]; omega)
    (by rw [hn, hret]), hret, hdata, hn]
  have hpos : (0 : Int) < (data.length : Int) := by exact_mod_cast hlen
  rw [if_pos hpos]
  congr 1
  apply List.map_congr_left
  intro i hi
  have hi2 : i < data.length := List.mem_range.mp hi
  have hm : (resolve_options hal cli ACTION_READ).is_map = true := by
    simp [resolve_options, hmap]
  have hb : data.getD i 0 % 256 = data.getD i 0 := by
    apply Nat.mod_eq_of_lt
    apply hbyte
    rw [List.getD_eq_getElem _ _ hi2]
    exact List.getElem_mem _
  rw [buffer_after_getD _ _ _ (by simpa using hi2), hb]
  simp only [byte_line, hm, if_true]
  rfl

/-- Witness of C5: `--action=read --address=0x4C --offset=0 --nbytes=4 --map=true` on the
sample driver, which delivers 0xC8, 0xC9, 0xCA, 0xCB. -/
theorem read_map_lines_witness :
    (no_help { readArgs with map := "true" } ∧
     opens_ok sampleHal (resolve_options sampleHal { readArgs with map := "true" } ACTION_READ) 0 ∧
     (read_outcome sampleHal
        (resolve_options sampleHal { readArgs with map := "true" } ACTION_READ) 0).1 = 4) ∧
    (main sampleHal { readArgs with map := "true" } (World.init 0)).world.out =
      summary (resolve_options sampleHal { readArgs with map := "true" } ACTION_READ) ++
        [read_banner (resolve_options sampleHal { readArgs with map := "true" } ACTION_READ),
         read_header (resolve_options sampleHal { readArgs with map := "true" } ACTION_READ)] ++
        (List.range [200, 201, 202, 203].length).map (fun i =>
          map_line (to_integer "0") i ([200, 201, 202, 203].getD i 0)) ∧
    (main sampleHal { readArgs with map := "true" } (World.init 0)).world.out =
      [ "I2C Port:0 Bitrate:100000bps PU:0", " default pin assignment\n",
        "Read: 4 bytes from 0x4C at 0\n", "Read 0x4C 0 4\n",
        "\x7b 0x00, 0xC8 \x7d,\n", "\x7b 0x01, 0xC9 \x7d,\n",
        "\x7b 0x02, 0xCA \x7d,\n", "\x7b 0x03, 0xCB \x7d,\n" ] :=
  ⟨⟨by simp [no_help, readArgs, bare], by simp [opens_ok, sampleHal], by decide⟩,
    read_map_lines sampleHal { readArgs with map := "true" } 0 [200, 201, 202, 203]
      (by simp [no_help, readArgs, bare]) rfl (by decide) (by decide) rfl
      (by simp [opens_ok, sampleHal]) (by decide) (by decide) (by decide) (by decide) (by decide),
    by decide⟩

/-- Claim C6 as stated fails: asked for four bytes, the driver returns the short count 2;
the program prints the two bytes received and no diagnostic. -/
theorem short_read_prints_bytes :
    (0 ≤ (read_outcome shortHal (resolve_options shortHal readArgs ACTION_READ) 0).1 ∧
     (read_outcome shortHal (resolve_options shortHal readArgs ACTION_READ) 0).1 <
       (resolve_options shortHal readArgs ACTION_READ).nbytes) ∧
    ¬ reports_read_failure shortHal readArgs 0 ∧
    (main shortHal readArgs (World.init 0)).world.out =
      [ "I2C Port:0 Bitrate:100000bps PU:0", " default pin assignment\n",
        "Read: 4 bytes from 0x4C at 0\n", "Read 0x4C 0 4\n",
        "Reg[000 or 0x00] = 017 or 0x11\n", "Reg[001 or 0x01] = 034 or 0x22\n" ] := by
  unfold reports_read_failure
  decide

/-- Claim C6, amended. In a read action with a byte count that is not negative, on a bus
that opens: when the register read returns zero or a negative result, the output is the
summary line, the two header lines and exactly one diagnostic line, which carries the
target address and the error code of the interface, and no byte line is printed; when it
returns a positive count `r` not above `byteCount`, short or not, the output is the same
headers followed by `r` byte lines and no diagnostic. -/
theorem read_failure_report {σ : Type} (hal : Hal σ) (cli : CliArgs) (s : σ)
    (hhelp : no_help cli) (hact : cli.action = "read") (haddr : cli.address ≠ "")
    (hoff : cli.offset ≠ "") (hopen : opens_ok hal (resolve_options hal cli ACTION_READ) s)
    (hn : 0 ≤ (resolve_options hal cli ACTION_READ).nbytes) :
    ((read_outcome hal (resolve_options hal cli ACTION_READ) s).1 ≤ 0 →
      reports_read_failure hal cli s) ∧
    (0 < (read_outcome hal (resolve_options hal cli ACTION_READ) s).1 →
      (read_outcome hal (resolve_options hal cli ACTION_READ) s).1 ≤
        (resolve_options hal cli ACTION_READ).nbytes →
      (main hal cli (World.init s)).world.out =
        summary (resolve_options hal cli ACTION_READ) ++
          [read_banner (resolve_options hal cli ACTION_READ),
           read_header (resolve_options hal cli ACTION_READ)] ++
          (List.range (read_outcome hal (resolve_options hal cli ACTION_READ) s).1.toNat).map
            (fun i => byte_line (resolve_options hal cli ACTION_READ) i
              ((read_outcome hal (resolve_options hal cli ACTION_READ) s).2.1.getD i 0 % 256))) := by
  constructor
  · intro hret
    unfold reports_read_failure
    rw [main_read_ok hal cli s hhelp hact haddr hoff hopen hn (le_trans hret hn),
      if_neg (not_lt.mpr hret)]
    simp
  · intro hpos hle
    rw [main_read_ok hal cli s hhelp hact haddr hoff hopen hn hle, if_pos hpos]
    congr 1
    apply List.map_congr_left
    intro i hi
    have hi2 : i < (read_outcome hal (resolve_options hal cli ACTION_READ) s).1.toNat :=
      List.mem_range.mp hi
    rw [buffer_after_getD _ _ _ (by omega)]

/-- Witness of C6, amended: on a driver whose register read fails with -1 and error code
5 the output ends with the single line `Failed to read 0x4C (5)`. -/
theorem read_failure_report_witness :
    (no_help readArgs ∧ opens_ok deafHal (resolve_options deafHal readArgs ACTION_READ) 0 ∧
     0 ≤ (resolve_options deafHal readArgs ACTION_READ).nbytes ∧
     (read_outcome deafHal (resolve_options deafHal readArgs ACTION_READ) 0).1 ≤ 0) ∧
    reports_read_failure deafHal readArgs 0 ∧
    (main deafHal readArgs (World.init 0)).world.out =
      [ "I2C Port:0 Bitrate:100000bps PU:0", " default pin assignment\n",
        "Read: 4 bytes from 0x4C at 0\n", "Read 0x4C 0 4\n", "Failed to read 0x4C (5)\n" ] :=
  ⟨⟨by simp [no_help, readArgs, bare], by simp [opens_ok, deafHal, sampleHal], by decide,
      by decide⟩,
    (read_failure_report deafHal readArgs 0 (by simp [no_help, readArgs, bare]) rfl
      (by decide) (by decide) (by simp [opens_ok, deafHal, sampleHal]) (by decide)).1
      (by decide),
    by decide⟩

theorem main_write_ok {σ : Type} (hal : Hal σ) (cli : CliArgs) (s : σ)
    (hhelp : no_help cli) (hact : cli.action = "write") (haddr : cli.address ≠ "")
    (hoff : cli.offset ≠ "") (hval : cli.value ≠ "")
    (hopen : opens_ok hal (resolve_options hal cli ACTION_WRITE) s) :
    main hal cli (World.init s) = Step.exit 0
      { dev := hal.close (write_outcome hal (resolve_options hal cli ACTION_WRITE) s).2
        out := summary (resolve_options hal cli ACTION_WRITE) ++
          [write_banner (resolve_options hal cli ACTION_WRITE)] ++
          (if (write_outcome hal (resolve_options hal cli ACTION_WRITE) s).1 < 0 then
            [write_diagnostic (resolve_options hal cli ACTION_WRITE)
              (hal.get_error (write_outcome hal (resolve_options hal cli ACTION_WRITE) s).2)]
          else [])
        err := []
        trace := open_calls hal (resolve_options hal cli ACTION_WRITE) s ++
          [Call.prepare (resolve_options hal cli ACTION_WRITE).slave_addr prepare_flags.by_default,
           Call.write_loc (resolve_options hal cli ACTION_WRITE).offset
             [to_u8 (resolve_options hal cli ACTION_WRITE).value]
             (write_outcome hal (resolve_options hal cli ACTION_WRITE) s).1] ++
          (if (write_outcome hal (resolve_options hal cli ACTION_WRITE) s).1 < 0 then
            [Call.get_error
              (hal.get_error (write_outcome hal (resolve_options hal cli ACTION_WRITE) s).2)]
          else []) ++ [Call.close]
} := by
  rw [main_write_eq hal cli _ hhelp hact haddr hoff hval, write_bus_ok hal _ _ hopen]
  simp [World.init]

/-- Claim C7. A write with address, offset and value present, on a bus that opens and
takes its attributes, makes after the opening exactly these calls: `prepare` of the slave
address (the address text read in base 16), one register write at the offset of a single
byte, the error query when that write failed, and `close`. No other read or write is made.
For a value from 0 to 255 the byte written is the value. -/
theorem write_single_byte {σ : Type} (hal : Hal σ) (cli : CliArgs) (s : σ)
    (hhelp : no_help cli) (hact : cli.action = "write") (haddr : cli.address ≠ "")
    (hoff : cli.offset ≠ "") (hval : cli.value ≠ "")
    (hopen : opens_ok hal (resolve_options hal cli ACTION_WRITE) s)
    (hbyte : 0 ≤ to_integer cli.value ∧ to_integer cli.value ≤ 255) :
    ∃ b : Nat, (b : Int) = to_integer cli.value ∧
      (main hal cli (World.init s)).world.trace =
        open_calls hal (resolve_options hal cli ACTION_WRITE) s ++
          [Call.prepare (to_u8 (to_long cli.address 16)) prepare_flags.by_default,
           Call.write_loc (to_integer cli.offset) [b]
             (write_outcome hal (resolve_options hal cli ACTION_WRITE) s).1] ++
          (if (write_outcome hal (resolve_options hal cli ACTION_WRITE) s).1 < 0 then
            [Call.get_error
              (hal.get_error (write_outcome hal (resolve_options hal cli ACTION_WRITE) s).2)]
          else []) ++ [Call.close] := by
  refine ⟨to_u8 (to_integer cli.value), ?_, ?_⟩
  · unfold to_u8
    obtain ⟨h0, h1⟩ := hbyte
    rw [Int.toNat_of_nonneg (Int.emod_nonneg _ (by decide))]
    exact Int.emod_eq_of_lt h0 (by omega)
  · rw [main_write_ok hal cli s hhelp hact haddr hoff hval hopen]
    rfl

/-- Witness of C7: `--action=write --address=0x4C --offset=0 --value=5` writes the single
byte 5 at offset 0 to the device 0x4C (76). -/
theorem write_single_byte_witness :
    (no_help writeArgs ∧ opens_ok sampleHal (resolve_options sampleHal writeArgs ACTION_WRITE) 0 ∧
      0 ≤ to_integer writeArgs.value ∧ to_integer writeArgs.value ≤ 255) ∧
    (∃ b : Nat, (b : Int) = to_integer writeArgs.value ∧
      (main sampleHal writeArgs (World.init 0)).world.trace =
        open_calls sampleHal (resolve_options sampleHal writeArgs ACTION_WRITE) 0 ++
          [Call.prepare (to_u8 (to_long writeArgs.address 16)) prepare_flags.by_default,
           Call.write_loc (to_integer writeArgs.offset) [b]
             (write_outcome sampleHal (resolve_options sampleHal writeArgs ACTION_WRITE) 0).1] ++
          (if (write_outcome sampleHal (resolve_options sampleHal writeArgs ACTION_WRITE) 0).1 < 0
            then [Call.get_error (sampleHal.get_error
              (write_outcome sampleHal (resolve_options sampleHal writeArgs ACTION_WRITE) 0).2)]
            else []) ++ [Call.close]) ∧
    (main sampleHal writeArgs (World.init 0)).world.trace =
      [ Call.open_ 0 0,
        Call.set_attributes
          { o_flags := { SET_MASTER := true, IS_PULLUP := false }, freq := 100000,
            pin_assignment := { sda := ⟨255, 255⟩, scl := ⟨255, 255⟩ } } 0,
        Call.prepare 76 prepare_flags.by_default,
        Call.write_loc 0 [5] 1,
        Call.close ] :=
  ⟨⟨by simp [no_help, writeArgs, bare], by simp [opens_ok, sampleHal], by decide, by decide⟩,
    write_single_byte sampleHal writeArgs 0 (by simp [no_help, writeArgs, bare]) rfl
      (by decide) (by decide) (by decide) (by simp [opens_ok, sampleHal])
      ⟨by decide, by decide⟩,
    by decide⟩

/-- Claim C8 as stated fails: the successful write of 5 at offset 0 to 0x4C prints, after
the summary line, the line `Write: 5 to 0 on 0x4C`. -/
theorem write_prints_banner :
    0 ≤ (write_outcome sampleHal (resolve_options sampleHal writeArgs ACTION_WRITE) 0).1 ∧
    ¬ prints_only_summary sampleHal writeArgs 0 ∧
    (main sampleHal writeArgs (World.init 0)).world.out =
      [ "I2C Port:0 Bitrate:100000bps PU:0", " default pin assignment\n",
        "Write: 5 to 0 on 0x4C\n" ] := by
  unfold prints_only_summary
  decide

/-- Claim C8, amended. When the write call of a write action returns a non-negative
result, the complete output is the summary line followed by the one line
`Write: <value> to <offset> on 0x<address>` that `main` prints before the bus is opened;
`write_bus` itself adds nothing. -/
theorem write_success_output {σ : Type} (hal : Hal σ) (cli : CliArgs) (s : σ)
    (hhelp : no_help cli) (hact : cli.action = "write") (haddr : cli.address ≠ "")
    (hoff : cli.offset ≠ "") (hval : cli.value ≠ "")
    (hopen : opens_ok hal (resolve_options hal cli ACTION_WRITE) s)
    (hret : 0 ≤ (write_outcome hal (resolve_options hal cli ACTION_WRITE) s).1) :
    (main hal cli (World.init s)).world.out =
      summary (resolve_options hal cli ACTION_WRITE) ++
        ["Write: " ++ fmt_d (to_integer cli.value) ++ " to " ++ fmt_d (to_integer cli.offset) ++
          " on 0x" ++ fmt_X (to_u8 (to_long cli.address 16)) ++ "\n"] ∧
    (main hal cli (World.init s)).world.err = [] := by
  rw [main_write_ok hal cli s hhelp hact haddr hoff hval hopen]
  simp only [Step.world, if_neg (not_lt.mpr hret), List.append_nil, and_true]
  rfl

/-- Witness of C8, amended: the write of 5 at offset 0 to 0x4C on the sample driver. -/
theorem write_success_output_witness :
    (no_help writeArgs ∧ opens_ok sampleHal (resolve_options sampleHal writeArgs ACTION_WRITE) 0 ∧
      0 ≤ (write_outcome sampleHal (resolve_options sampleHal writeArgs ACTION_WRITE) 0).1) ∧
    (main sampleHal writeArgs (World.init 0)).world.out =
      summary (resolve_options sampleHal writeArgs ACTION_WRITE) ++
        ["Write: " ++ fmt_d (to_integer writeArgs.value) ++ " to " ++
          fmt_d (to_integer writeArgs.offset) ++
          " on 0x" ++ fmt_X (to_u8 (to_long writeArgs.address 16)) ++ "\n"] ∧
    (main sampleHal writeArgs (World.init 0)).world.err = [] :=
  ⟨⟨by simp [no_help, writeArgs, bare], by simp [opens_ok, sampleHal], by decide⟩,
    write_success_output sampleHal writeArgs 0 (by simp [no_help, writeArgs, bare]) rfl
      (by decide) (by decide) (by decide) (by simp [opens_ok, sampleHal]) (by decide)⟩

theorem digitValue_of_isDigit (c : Char) (h : c.isDigit = true) :
    digitValue c = some (c.toNat - 48) ∧ c.toNat - 48 < 10 := by
  have h1 : 48 ≤ c.toNat ∧ c.toNat ≤ 57 := by
    simp only [Char.isDigit, Bool.and_eq_true, decide_eq_true_eq] at h
    exact ⟨h.1, h.2⟩
  have hle : '0' ≤ c ∧ c ≤ '9' := by
    constructor
    · show (48 : Nat) ≤ c.toNat
      exact h1.1
    · show c.toNat ≤ (57 : Nat)
      exact h1.2
  constructor
  · simp [digitValue, hle]
  · omega

theorem accumulate_digits (cs : List Char) (h : ∀ c ∈ cs, c.isDigit = true) (acc : Nat) :
    accumulate 10 cs acc =
      acc * 10 ^ cs.length + Nat.ofDigits 10 (cs.reverse.map (fun c => c.toNat - 48)) := by
  induction cs generalizing acc with
  | nil => simp [accumulate]
  | cons c cs ih =>
    obtain ⟨hd, hlt⟩ := digitValue_of_isDigit c (h c (List.mem_cons_self _ _))
    have ih2 := ih (fun d hd => h d (List.mem_cons_of_mem _ hd)) (acc * 10 + (c.toNat - 48))
    simp only [accumulate, hd, hlt, if_true, ih2, List.reverse_cons, List.map_append,
      List.map_cons, List.map_nil, Nat.ofDigits_append, Nat.ofDigits_singleton, List.length_map,
      List.length_reverse, List.length_cons]
    ring

theorem not_digit_ne (c d : Char) (h : c.isDigit = true) (hd : d.isDigit = false) : c ≠ d := by
  intro hcd
  rw [hcd, hd] at h
  exact Bool.false_ne_true h

theorem takeHexMark_ten (cs : List Char) : takeHexMark 10 cs = cs := by
  unfold takeHexMark
  split <;> simp

theorem takeSign_digit (c : Char) (cs : List Char) (h : c.isDigit = true) :
    takeSign (c :: cs) = (false, c :: cs) := by
  unfold takeSign
  split
  · rename_i heq
    exact absurd (List.cons.inj heq).1 (not_digit_ne c '-' h (by decide))
  · rename_i heq
    exact absurd (List.cons.inj heq).1 (not_digit_ne c '+' h (by decide))
  · rfl

theorem isspace_digit (c : Char) (h : c.isDigit = true) : isspace c = false := by
  have hne := fun d hd => not_digit_ne c d h hd
  simp [isspace, hne ' ' (by decide), hne '\t' (by decide), hne '\n' (by decide),
    hne '\x0b' (by decide), hne '\x0c' (by decide), hne '\r' (by decide)]

theorem to_integer_denotes (s : String) (n : Nat) (h : denotes s n) (hn : n ≤ 2147483647) :
    to_integer s = n := by
  obtain ⟨hne, hdig, hval⟩ := h
  have hacc := accumulate_digits s.toList hdig 0
  rw [Nat.zero_mul, Nat.zero_add, ← hval] at hacc
  unfold to_integer atoi strtol
  cases hs : s.toList with
  | nil => exact absurd hs hne
  | cons c cs =>
    have hc : c.isDigit = true := hdig c (by rw [hs]; exact List.mem_cons_self _ _)
    rw [hs] at hacc
    simp only [List.dropWhile, isspace_digit c hc, takeSign_digit c cs hc, takeHexMark_ten, hacc]
    have h1 : ¬ ((n : Int) > LONG_MAX) := by
      unfold LONG_MAX
      omega
    have h2 : ¬ ((n : Int) < LONG_MIN) := by
      unfold LONG_MIN
      omega
    simp [clampLong, h1, h2]

theorem to_u32_natCast (n : Nat) (hn : n ≤ 2147483647) : to_u32 (n : Int) = n := by
  unfold to_u32
  omega

theorem i2c_open_rejected {σ : Type} (hal : Hal σ) (o : options_t) (w : World σ)
    (h1 : 0 ≤ (hal.open_ o.port w.dev).1)
    (h2 : (hal.set_attributes o.attr (hal.open_ o.port w.dev).2).1 < 0) :
    i2c_open hal o w = Step.exit 1 (i2c_open hal o w).world ∧
      (i2c_open hal o w).world.trace = w.trace ++ open_calls hal o w.dev ++
        [Call.close, Call.error_number (hal.error_number (hal.close (opened_dev hal o w.dev)))] := by
  simp [i2c_open, World.call, not_lt.mpr h1, h2, Step.world, World.perror, open_calls,
    opened_dev]

theorem world_of_finish {σ : Type} (st : Step σ) :
    (match st with
      | Step.exit c w => Step.exit c w
      | Step.cont w => Step.exit 0 w
      | Step.fault w => Step.fault w).world = st.world := by
  cases st <;> rfl

theorem scan_bus_trace {σ : Type} (hal : Hal σ) (o : options_t) (w : World σ)
    (h1 : 0 ≤ (hal.open_ o.port w.dev).1) :
    w.trace ++ open_calls hal o w.dev <+: (scan_bus hal o w).world.trace := by
  by_cases h2 : (hal.set_attributes o.attr (hal.open_ o.port w.dev).2).1 < 0
  · obtain ⟨e, ht⟩ := i2c_open_rejected hal o w h1 h2
    unfold scan_bus
    rw [e]
    show _ <+: (i2c_open hal o w).world.trace
    rw [ht]
    exact List.prefix_append _ _
  · rw [scan_bus_ok hal o w ⟨h1, not_lt.mp h2⟩]
    simp only [Step.world, List.append_assoc]
    simp

theorem read_bus_trace {σ : Type} (hal : Hal σ) (o : options_t) (w : World σ)
    (h1 : 0 ≤ (hal.open_ o.port w.dev).1) (hn : 0 ≤ o.nbytes) :
    w.trace ++ open_calls hal o w.dev <+: (read_bus hal o w).world.trace := by
  by_cases h2 : (hal.set_attributes o.attr (hal.open_ o.port w.dev).2).1 < 0
  · obtain ⟨e, ht⟩ := i2c_open_rejected hal o w h1 h2
    unfold read_bus
    rw [if_neg (not_lt.mpr hn), e]
    show _ <+: (i2c_open hal o w).world.trace
    rw [ht]
    exact List.prefix_append _ _
  · unfold read_bus
    rw [if_neg (not_lt.mpr hn), i2c_open_ok hal o w ⟨h1, not_lt.mp h2⟩]
    simp only [World.call, World.printf]
    split
    · rename_i w2 heq
      have ht : (Step.world _).trace = w2.trace := congrArg (fun st => st.world.trace) heq
      show _ <+: w2.trace ++ [Call.close]
      refine List.IsPrefix.trans ?_ (List.prefix_append _ _)
      rw [← ht]
      split
      · rw [read_fold_trace]
        simp [Step.world, List.append_assoc]
      · simp [Step.world, List.append_assoc]
    · rename_i c w2 heq
      have ht : (Step.world _).trace = w2.trace := congrArg (fun st => st.world.trace) heq
      show _ <+: w2.trace
      rw [← ht]
      split
      · rw [read_fold_trace]
        simp [Step.world, List.append_assoc]
      · simp [Step.world, List.append_assoc]
    · rename_i w2 heq
      have ht : (Step.world _).trace = w2.trace := congrArg (fun st => st.world.trace) heq
      show _ <+: w2.trace
      rw [← ht]
      split
      · rw [read_fold_trace]
        simp [Step.world, List.append_assoc]
      · simp [Step.world, List.append_assoc]

theorem write_bus_trace {σ : Type} (hal : Hal σ) (o : options_t) (w : World σ)
    (h1 : 0 ≤ (hal.open_ o.port w.dev).1) :
    w.trace ++ open_calls hal o w.dev <+: (write_bus hal o w).world.trace := by
  by_cases h2 : (hal.set_attributes o.attr (hal.open_ o.port w.dev).2).1 < 0
  · obtain ⟨e, ht⟩ := i2c_open_rejected hal o w h1 h2
    unfold write_bus
    rw [e]
    show _ <+: (i2c_open hal o w).world.trace
    rw [ht]
    exact List.prefix_append _ _
  · rw [write_bus_ok hal o w ⟨h1, not_lt.mp h2⟩]
    simp only [Step.world, List.append_assoc]
    simp

theorem main_passes_attr {σ : Type} (hal : Hal σ) (cli : CliArgs) (s : σ)
    (hhelp : no_help cli) (hvalid : ¬ fails_validation cli)
    (hopen : 0 ≤ (hal.open_ (to_u8 (to_integer cli.port)) s).1)
    (hn : cli.action = "read" → 0 ≤ (resolve_options hal cli ACTION_READ).nbytes) :
    ∃ action, attr_passed (main hal cli (World.init s)).world.trace =
      some (resolve_options hal cli action).attr := by
  unfold fails_validation at hvalid
  by_cases hs : cli.action = "scan"
  · refine ⟨ACTION_SCAN, ?_⟩
    obtain ⟨rest, hr0⟩ := scan_bus_trace hal (resolve_options hal cli ACTION_SCAN)
      { World.init s with
        out := ((World.init s).out ++ summary (resolve_options hal cli ACTION_SCAN)) } hopen
    rw [main_scan_eq hal cli _ hhelp hs, world_of_finish, ← hr0]
    simp [World.init, open_calls, attr_passed]
  · by_cases hr : cli.action = "read"
    · have haddr : cli.address ≠ "" := fun h => hvalid (Or.inr (Or.inr ⟨hr, Or.inl h⟩))
      have hoff : cli.offset ≠ "" := fun h => hvalid (Or.inr (Or.inr ⟨hr, Or.inr h⟩))
      refine ⟨ACTION_READ, ?_⟩
      obtain ⟨rest, hr2⟩ := read_bus_trace hal (resolve_options hal cli ACTION_READ)
        { World.init s with
          out := ((World.init s).out ++ summary (resolve_options hal cli ACTION_READ) ++
            [read_banner (resolve_options hal cli ACTION_READ)]) } hopen (hn hr)
      rw [main_read_eq hal cli _ hhelp hr haddr hoff, world_of_finish, ← hr2]
      simp [World.init, open_calls, attr_passed]
    · by_cases hw : cli.action = "write"
      · have haddr : cli.address ≠ "" := fun h => hvalid (Or.inr (Or.inl ⟨hw, Or.inl h⟩))
        have hoff : cli.offset ≠ "" :=
          fun h => hvalid (Or.inr (Or.inl ⟨hw, Or.inr (Or.inl h)⟩))
        have hval : cli.value ≠ "" :=
          fun h => hvalid (Or.inr (Or.inl ⟨hw, Or.inr (Or.inr h)⟩))
        refine ⟨ACTION_WRITE, ?_⟩
        obtain ⟨rest, hr2⟩ := write_bus_trace hal (resolve_options hal cli ACTION_WRITE)
          { World.init s with
            out := ((World.init s).out ++ summary (resolve_options hal cli ACTION_WRITE) ++
              [write_banner (resolve_options hal cli ACTION_WRITE)]) } hopen
        rw [main_write_eq hal cli _ hhelp hw haddr hoff hval, world_of_finish, ← hr2]
        simp [World.init, open_calls, attr_passed]
      · exact absurd (Or.inl ⟨hs, hr, hw⟩) hvalid

set_option maxRecDepth 1000000 in
/-- Claim C10 as stated fails: `--frequency=3000000000` is a run of decimal digits whose
value fits the 32-bit frequency field, and the frequency handed to the interface is
2147483647, the largest `int` the text is converted through. -/
theorem frequency_saturates :
    (denotes "3000000000" 3000000000 ∧ (3000000000 : Nat) ≠ 0 ∧
      (3000000000 : Nat) < 4294967296) ∧
    (∃ attr, attr_passed (main sampleHal
        { bare with action := "scan", frequency := "3000000000" }
        (World.init 0)).world.trace = some attr ∧
      attr.freq = 2147483647 ∧ attr.freq ≠ 3000000000) :=
  ⟨⟨⟨by decide, by decide, by decide⟩, by decide, by decide⟩,
    ⟨{ o_flags := { SET_MASTER := true, IS_PULLUP := false }, freq := 2147483647,
       pin_assignment := { sda := ⟨255, 255⟩, scl := ⟨255, 255⟩ } },
      by decide, rfl, by decide⟩⟩

/-- Claim C10, amended. In every invocation that passes the validation gate, whose byte
count is not negative when the action is read, and whose bus opens, attributes are handed
to the interface, and their frequency is 100000 when `--frequency` is absent (empty) or is
the text `0`, and is `n` when `--frequency` is a run of decimal digits whose value `n` is
not zero and is at most 2147483647, the largest `int` the text is converted through. -/
theorem frequency_resolution {σ : Type} (hal : Hal σ) (cli : CliArgs) (s : σ)
    (hhelp : no_help cli) (hvalid : ¬ fails_validation cli)
    (hopen : 0 ≤ (hal.open_ (to_u8 (to_integer cli.port)) s).1)
    (hcount : cli.action = "read" → 0 ≤ (resolve_options hal cli ACTION_READ).nbytes) :
    ∃ attr, attr_passed (main hal cli (World.init s)).world.trace = some attr ∧
      (cli.frequency = "" ∨ cli.frequency = "0" → attr.freq = 100000) ∧
      (∀ n, denotes cli.frequency n → n ≠ 0 → n ≤ 2147483647 → attr.freq = n) := by
  obtain ⟨action, h⟩ := main_passes_attr hal cli s hhelp hvalid hopen hcount
  refine ⟨_, h, ?_, ?_⟩
  · intro hf
    have h0 : to_integer cli.frequency = 0 := by
      rcases hf with hf | hf <;> rw [hf] <;> decide
    simp [resolve_options, h0, to_u32]
  · intro n hden hn0 hmax
    simp [resolve_options, to_integer_denotes _ n hden hmax, to_u32_natCast n hmax, hn0]

/-- Witness of C10, amended: `--action=scan --frequency=400000` on the sample driver hands
the frequency 400000 to the interface. -/
theorem frequency_resolution_witness :
    (no_help { bare with action := "scan", frequency := "400000" } ∧
     ¬ fails_validation { bare with action := "scan", frequency := "400000" } ∧
     denotes "400000" 400000) ∧
    ∃ attr, attr_passed (main sampleHal { bare with action := "scan", frequency := "400000" }
        (World.init 0)).world.trace = some attr ∧ attr.freq = 400000 := by
  have hd : denotes "400000" 400000 := ⟨by decide, by decide, by decide⟩
  have hh : no_help { bare with action := "scan", frequency := "400000" } := by
    simp [no_help, bare]
  have hv : ¬ fails_validation { bare with action := "scan", frequency := "400000" } := by
    simp [fails_validation, bare]
  obtain ⟨attr, ha, _, hn⟩ := frequency_resolution sampleHal
    { bare with action := "scan", frequency := "400000" } 0 hh hv (by decide)
    (fun h => absurd h (by decide))
  exact ⟨⟨hh, hv, hd⟩, attr, ha, hn 400000 hd (by decide) (by decide)⟩

/-- Claim C9, the code: the text of `--offset16` reaches nothing. For every driver, every
argument set and every text `v`, the run with `--offset16` set to `v` is the same as the run
without the change: same calls on the interface with the same attributes and flags, same
output, same status. The field `is_offset_16` is stored and never read. -/
theorem offset16_not_forwarded {σ : Type} (hal : Hal σ) (cli : CliArgs) (v : String)
    (w : World σ) :
    main hal { cli with offset16 := v } w = main hal cli w := rfl

end I2CTool
